import Mathlib

/-!
Verification of the template-structure inference and value-placement engine of the
ExcelCopilotAddIn repository, as a shallow embedding in Lean 4.

The repository file `src/taskpane/services/excel.service.js` contains two
near-identical revisions of the population engine, concatenated in one file.
Definitions named `..._rev1` embed the earlier revision (the first half of the file);
definitions named `..._rev2` embed the later revision (the second half, the one
imported by `src/taskpane/pipelines/population.js`).

Conventions of the embedding:
* JS scalar cell values are modelled by `JsValue`; `Option JsValue` models a value
  that may be `null`/`undefined` (`none` covers both, since the code treats them
  identically at every point that the claims touch, except where noted).
* JS numbers appearing as coordinates are modelled by `Int` (the code performs only
  integer arithmetic on them).
* A thrown `Error` is modelled by `Except`; the payload carries the message text
  (or a structured error that renders to the message text).
* Grid mutation is modelled by the list of cell writes a call issues, in issue order.
-/

namespace ExcelCopilot

/-- A JS scalar value as it occurs in a cell or in mapped data: string, number,
boolean, or an object/array (carried by its JSON rendering, which is all the code
ever does with it). -/
inductive JsValue where
  | str (s : String)
  | num (n : Int)
  | bool (b : Bool)
  | obj (json : String)
  deriving DecidableEq, Repr

/-- JS truthiness of a cell value: `""`, `0` and `false` are falsy. -/
def jsTruthy : JsValue → Bool
  | JsValue.str s => !(s = "")
  | JsValue.num n => !(n = 0)
  | JsValue.bool b => b
  | JsValue.obj _ => true

/-- JS `value.toString()` on a scalar cell value. -/
def jsToString : JsValue → String
  | JsValue.str s => s
  | JsValue.num n => toString n
  | JsValue.bool b => if b then "true" else "false"
  | JsValue.obj json => json

/-- The code point of a character after JS `toLowerCase`, for the ASCII range the
add-in's field names live in. -/
def lowerCode (c : Char) : Nat :=
  if 65 ≤ c.toNat ∧ c.toNat ≤ 90 then c.toNat + 32 else c.toNat

/-- Whether the first code-point list is a prefix of the second. -/
def matchesFront : List Nat → List Nat → Bool
  | [], _ => true
  | _ :: _, [] => false
  | p :: ps, a :: as => (p = a : Bool) && matchesFront ps as

/-- JS `s.toLowerCase().includes(t.toLowerCase())`: the lowercased `t` occurs as a
contiguous substring of the lowercased `s`. -/
def lowerIncludes (s t : String) : Bool :=
  (List.range (s.data.length + 1)).any (fun i =>
    matchesFront (t.data.map lowerCode) ((s.data.map lowerCode).drop i))

/-- JS `a || b` on numbers that are known not to be `NaN`: `b` when `a` is `0`. -/
def jsOrInt (a b : Int) : Int :=
  if a = 0 then b else a

/-- `sanitizeValueForExcel` from `excel.service.js` (identical in both revisions):
`null`/`undefined` become `""`, objects become their JSON text, strings and
numbers and booleans pass through. -/
def sanitizeValueForExcel : Option JsValue → JsValue
  | none => JsValue.str ""
  | some (JsValue.obj json) => JsValue.str json
  | some (JsValue.str s) => JsValue.str s
  | some (JsValue.num n) => JsValue.num n
  | some (JsValue.bool b) => JsValue.bool b

/-- A mapped data row: a JS object from field names to values. A key bound to
`none` models a property stored as `null`; an absent key models `undefined`. -/
def Row := List (String × Option JsValue)

instance : DecidableEq Row := by
  unfold Row
  infer_instance

/-- JS property read `row[k]`: the stored value if the key is present
(possibly `null`), `undefined` otherwise. Both `null` and an absent key
yield `none`. -/
def rowGet (row : Row) (k : String) : Option JsValue :=
  match row.find? (fun p => p.1 = k) with
  | some p => p.2
  | none => none

/-- A 0-based (row, col) position, relative to a region or absolute on the sheet.
Coordinates are `Int` because they come from JS arithmetic and from unvalidated
model output; the code explicitly compares them with `0`. -/
structure Loc where
  row : Int
  col : Int
  deriving DecidableEq, Repr

/-- One field record of a template structure, with the property names used by the
source (`fieldName`, `fieldLocation`, `valueLocation`; the spec calls the
locations `labelPosition` and `valuePosition`). -/
structure Field where
  fieldName : String
  fieldLocation : Loc
  valueLocation : Loc
  description : String
  dataType : String
  deriving DecidableEq, Repr

/-- The template structure returned by the analyzer: an orientation string and a
field list. -/
structure TemplateStructure where
  orientation : String
  fields : List Field
  deriving DecidableEq, Repr

/-- One issued cell write: absolute sheet coordinates and the written value. -/
structure Write where
  row : Int
  col : Int
  value : JsValue
  deriving DecidableEq, Repr

instance {e a : Type} [DecidableEq e] [DecidableEq a] : DecidableEq (Except e a) := fun x y =>
  match x, y with
  | Except.ok v, Except.ok w =>
    if h : v = w then isTrue (by rw [h]) else isFalse (fun hh => by cases hh; exact h rfl)
  | Except.ok _, Except.error _ => isFalse (fun hh => by cases hh)
  | Except.error _, Except.ok _ => isFalse (fun hh => by cases hh)
  | Except.error u, Except.error w =>
    if h : u = w then isTrue (by rw [h]) else isFalse (fun hh => by cases hh; exact h rfl)

/-- Applying a list of issued writes to a sheet, in order (later writes win). -/
def applyWrites (ws : List Write) (sheet : Int → Int → JsValue) : Int → Int → JsValue :=
  ws.foldl (fun s w => fun r c => if r = w.row ∧ c = w.col then w.value else s r c) sheet

/-! ### Population engine: vertical orientation -/

/-- The error message thrown by the earlier revision's `populateVerticalTemplate`
when a computed absolute position is negative. -/
def invalidPositionMsg_rev1 (fieldName : String) (row col : Int) : String :=
  "Invalid absolute position for field \"" ++ fieldName ++ "\": row " ++ toString row ++
    ", col " ++ toString col ++ ". Check template analysis."

/-- The error message thrown by the later revision's `populateVerticalTemplate`
when a computed absolute position is negative. -/
def invalidPositionMsg_rev2 (fieldName : String) (row col : Int) : String :=
  "Invalid absolute position for field \"" ++ fieldName ++ "\": row " ++ toString row ++
    ", col " ++ toString col ++ "."

/-- The cell-update building loop of the earlier revision's
`populateVerticalTemplate` (`templateStructure.fields.forEach(...)`): a field whose
value in the data row is `undefined` or `null` is skipped; otherwise the absolute
target is `(rowIndex + valueLocation.row, columnIndex + valueLocation.col)`, a
negative coordinate throws, and otherwise a write of the sanitized value is queued.
The queued writes are applied only after the whole loop succeeds, so a thrown
error means no write was issued. -/
def verticalBuild_rev1 (ri ci : Int) (dataRow : Row) : List Field → Except String (List Write)
  | [] => Except.ok []
  | f :: rest =>
    match rowGet dataRow f.fieldName with
    | none => verticalBuild_rev1 ri ci dataRow rest
    | some v =>
      let absoluteRow := ri + f.valueLocation.row
      let absoluteCol := ci + f.valueLocation.col
      if absoluteRow < 0 ∨ absoluteCol < 0 then
        Except.error (invalidPositionMsg_rev1 f.fieldName absoluteRow absoluteCol)
      else
        match verticalBuild_rev1 ri ci dataRow rest with
        | Except.ok ws => Except.ok (⟨absoluteRow, absoluteCol, sanitizeValueForExcel (some v)⟩ :: ws)
        | Except.error e => Except.error e

/-- `populateVerticalTemplate` of the earlier revision: uses
`validatedData[0] || {}` and writes each defined field's sanitized value at
`templateRange + field.valueLocation`. -/
def populateVerticalTemplate_rev1 (ri ci : Int) (fields : List Field)
    (validatedData : List Row) : Except String (List Write) :=
  verticalBuild_rev1 ri ci (validatedData.headD []) fields

/-- The cell-update building loop of the later revision's
`populateVerticalTemplate`: it ignores `valueLocation` and always targets
`(rowIndex + fieldLocation.row, columnIndex + fieldLocation.col + 1)` — one column
to the right of the field name. -/
def verticalBuild_rev2 (ri ci : Int) (dataRow : Row) : List Field → Except String (List Write)
  | [] => Except.ok []
  | f :: rest =>
    match rowGet dataRow f.fieldName with
    | none => verticalBuild_rev2 ri ci dataRow rest
    | some v =>
      let targetRow := ri + f.fieldLocation.row
      let targetCol := ci + f.fieldLocation.col + 1
      if targetRow < 0 ∨ targetCol < 0 then
        Except.error (invalidPositionMsg_rev2 f.fieldName targetRow targetCol)
      else
        match verticalBuild_rev2 ri ci dataRow rest with
        | Except.ok ws => Except.ok (⟨targetRow, targetCol, sanitizeValueForExcel (some v)⟩ :: ws)
        | Except.error e => Except.error e

/-- `populateVerticalTemplate` of the later revision (the one reached from
`populateTemplate` as imported by the population pipeline). -/
def populateVerticalTemplate_rev2 (ri ci : Int) (fields : List Field)
    (validatedData : List Row) : Except String (List Write) :=
  verticalBuild_rev2 ri ci (validatedData.headD []) fields

/-! ### Population engine: horizontal orientation -/

/-- The writes issued by assigning a 2-D array to a rectangular range anchored at
`(r, c)`: cell `(r + i, c + j)` receives `rows[i][j]`. -/
def rowWrites (r c : Int) : List JsValue → List Write
  | [] => []
  | v :: vs => ⟨r, c, v⟩ :: rowWrites r (c + 1) vs

/-- Block-assignment writes for a list of rows stacked downward from row `r`. -/
def blockWrites (r c : Int) : List (List JsValue) → List Write
  | [] => []
  | row :: rest => rowWrites r c row ++ blockWrites (r + 1) c rest

/-- `populateHorizontalTemplate` of the earlier revision: builds one output row per
record, one column per field in field-list order (a field absent from the record
becomes `""`), and assigns the block to the range starting at
`(rowIndex + 1, columnIndex)`. `valueLocation` is never read, and no coordinate
check is performed. -/
def populateHorizontalTemplate_rev1 (ri ci : Int) (fields : List Field)
    (validatedData : List Row) : List Write :=
  let headers := fields.map (fun f => f.fieldName)
  let startRow := ri + 1
  let newRowsData := validatedData.map (fun dataObject =>
    headers.map (fun h => sanitizeValueForExcel (rowGet dataObject h)))
  blockWrites startRow ci newRowsData

/-- The header-row scan of the later revision's `populateHorizontalTemplate`:
for each template row, count the fields whose (lowercased) name occurs in some
truthy cell of that row, and record the row whenever that count exceeds the
currently recorded row index (the comparison is `matchingFields.length >
headerRowIndex`, exactly as in the source). -/
def headerRowIndexCalc (grid : List (List JsValue)) (rowCount : Nat)
    (fields : List Field) : Nat :=
  (List.range rowCount).foldl
    (fun hri row =>
      let rowValues := grid.getD row []
      let matching := fields.filter (fun f =>
        rowValues.any (fun cell =>
          jsTruthy cell && lowerIncludes (jsToString cell) f.fieldName))
      if matching.length > hri then row else hri)
    0

/-- The first column of the header row whose truthy cell contains the field name
(case-insensitively); `none` when no column matches. -/
def findHeaderCol (headerRow : List JsValue) (name : String) : Option Nat :=
  headerRow.findIdx? (fun cell =>
    jsTruthy cell && lowerIncludes (jsToString cell) name)

/-- JS `Map.prototype.set` on an insertion-ordered association list: an existing
key keeps its position and gets the new value, a new key is appended. -/
def mapSet (m : List (String × Int)) (k : String) (v : Int) : List (String × Int) :=
  if m.any (fun p => p.1 = k) then m.map (fun p => if p.1 = k then (k, v) else p)
  else m ++ [(k, v)]

/-- The field-to-column map of the later revision's `populateHorizontalTemplate`:
each field is mapped to `columnIndex + col` for the first header-row column whose
cell contains its name. -/
def fieldToColumnMapCalc (ci : Int) (headerRow : List JsValue)
    (fields : List Field) : List (String × Int) :=
  fields.foldl
    (fun m f =>
      match findHeaderCol headerRow f.fieldName with
      | some col => mapSet m f.fieldName (ci + (col : Int))
      | none => m)
    []

/-- `populateHorizontalTemplate` of the later revision: detects a header row,
derives each field's column by matching its name in that row, and writes record
`i`'s value for each mapped field at
`(rowIndex + headerRowIndex + 1 + i, mapped column)`. `valueLocation` is never
read, and no negative-coordinate check is performed. -/
def populateHorizontalTemplate_rev2 (ri ci : Int) (grid : List (List JsValue))
    (rowCount : Nat) (fields : List Field) (validatedData : List Row) : List Write :=
  let hri := headerRowIndexCalc grid rowCount fields
  let dataStartRow := ri + (hri : Int) + 1
  let m := fieldToColumnMapCalc ci (grid.getD hri []) fields
  validatedData.enum.flatMap (fun p =>
    m.map (fun kv => ⟨dataStartRow + (p.1 : Int), kv.2, sanitizeValueForExcel (rowGet p.2 kv.1)⟩))

/-! ### Population engine: top-level dispatch -/

/-- `validateMappedData` (identical in both revisions): for each data row build a
row carrying exactly the template headers, copying a present property (even when
it is `null`) and defaulting an absent one to `""`. -/
def validateMappedData (mappedData : List Row) (templateHeaders : List String) : List Row :=
  if mappedData.isEmpty then []
  else mappedData.map (fun dataRow =>
    templateHeaders.map (fun header =>
      match dataRow.find? (fun p => p.1 = header) with
      | some p => (header, p.2)
      | none => (header, some (JsValue.str ""))))

/-- `populateTemplate` of the later revision: an empty (or missing) mapped-data
list returns successfully at once with no writes (`return; // Nothing to
populate`); a missing template structure throws; otherwise the data is validated
against the headers and the call dispatches on orientation. -/
def populateTemplate (ri ci : Int) (grid : List (List JsValue)) (rowCount : Nat)
    (mappedData : List Row) (ts : Option TemplateStructure) : Except String (List Write) :=
  if mappedData.isEmpty then Except.ok []
  else
    match ts with
    | none => Except.error "Template structure information is missing"
    | some t =>
      let headers := t.fields.map (fun f => f.fieldName)
      let validatedData := validateMappedData mappedData headers
      if validatedData.isEmpty then Except.error "No valid data to populate after validation"
      else if t.orientation = "vertical" then
        populateVerticalTemplate_rev2 ri ci t.fields validatedData
      else
        Except.ok (populateHorizontalTemplate_rev2 ri ci grid rowCount t.fields validatedData)

/-! ### Template structure analyzer: post-hoc validation (`gemini.service.js`) -/

/-- The errors thrown by `analyzeTemplateStructure` after parsing the model
response, as a structured type; `renderAnalysisErr` recovers the exact message
text of the source. -/
inductive AnalysisErr where
  | invalidStructure
  | sameLocation (f : Field)
  | fieldLocationOutOfBounds (idx : Nat) (f : Field) (maxRow maxCol : Int) (nRows nCols : Nat)
  | valueLocationOutOfBounds (idx : Nat) (f : Field) (maxRow maxCol : Int) (nRows nCols : Nat)
  deriving DecidableEq, Repr

/-- Renders a location the way the source interpolates it into messages. -/
def renderLoc (p : Loc) : String :=
  "\x7brow:" ++ toString p.row ++ ", col:" ++ toString p.col ++ "\x7d"

/-- The exact message text of each thrown analysis error. -/
def renderAnalysisErr : AnalysisErr → String
  | AnalysisErr.invalidStructure => "Invalid template analysis response structure"
  | AnalysisErr.sameLocation f =>
      "Field \"" ++ f.fieldName ++ "\" has invalid configuration: valueLocation " ++
        renderLoc f.valueLocation ++ " is identical to fieldLocation " ++
        renderLoc f.fieldLocation ++
        ". Values cannot be placed on top of field names. This would overwrite the field name and corrupt the template."
  | AnalysisErr.fieldLocationOutOfBounds idx f maxRow maxCol nRows nCols =>
      "Field " ++ toString idx ++ " (" ++ f.fieldName ++ ") has invalid fieldLocation: " ++
        renderLoc f.fieldLocation ++ ". Must be within bounds [0-" ++ toString maxRow ++
        ", 0-" ++ toString maxCol ++ "]. Template data has " ++ toString nRows ++
        " rows and " ++ toString nCols ++ " columns."
  | AnalysisErr.valueLocationOutOfBounds idx f maxRow maxCol nRows nCols =>
      "Field " ++ toString idx ++ " (" ++ f.fieldName ++ ") has invalid valueLocation: " ++
        renderLoc f.valueLocation ++ ". Must be within bounds [0-" ++ toString maxRow ++
        ", 0-" ++ toString maxCol ++ "]. Template data has " ++ toString nRows ++
        " rows and " ++ toString nCols ++ " columns."

/-- The per-field validation loop of `analyzeTemplateStructure`
(`parsedResponse.fields.forEach(...)`): for each field, in order, first the
identical-location guard, then the `fieldLocation` bounds check, then the
`valueLocation` bounds check; the first failing check throws. -/
def validateFields (maxRow maxCol : Int) (nRows nCols : Nat) :
    Nat → List Field → Except AnalysisErr Unit
  | _, [] => Except.ok ()
  | idx, f :: rest =>
    if f.fieldLocation.row = f.valueLocation.row ∧ f.fieldLocation.col = f.valueLocation.col then
      Except.error (AnalysisErr.sameLocation f)
    else if f.fieldLocation.row < 0 ∨ f.fieldLocation.row > maxRow ∨
        f.fieldLocation.col < 0 ∨ f.fieldLocation.col > maxCol then
      Except.error (AnalysisErr.fieldLocationOutOfBounds idx f maxRow maxCol nRows nCols)
    else if f.valueLocation.row < 0 ∨ f.valueLocation.row > maxRow ∨
        f.valueLocation.col < 0 ∨ f.valueLocation.col > maxCol then
      Except.error (AnalysisErr.valueLocationOutOfBounds idx f maxRow maxCol nRows nCols)
    else validateFields maxRow maxCol nRows nCols (idx + 1) rest

/-- `maxRow` as computed by the source: `templateData.length - 1`. -/
def analyzerMaxRow (templateData : List (List JsValue)) : Int :=
  (templateData.length : Int) - 1

/-- `maxCol` as computed by the source: `templateData[0]?.length - 1 || 0` —
`0` when there is no first row (the `NaN || 0` case), otherwise
`firstRow.length - 1` with `0` substituted when that difference is `0` (which
leaves the value unchanged) and `-1` kept when the first row is empty. -/
def analyzerMaxCol (templateData : List (List JsValue)) : Int :=
  match templateData.head? with
  | none => 0
  | some r0 => jsOrInt ((r0.length : Int) - 1) 0

/-- `templateData[0]?.length || 0`, used in the interpolated messages. -/
def analyzerNCols (templateData : List (List JsValue)) : Nat :=
  match templateData.head? with
  | none => 0
  | some r0 => r0.length

/-- The validation stage of `analyzeTemplateStructure`, applied to the parsed
model response: a falsy orientation (empty string) is rejected, every field is
validated, and on success the parsed response is returned unchanged — no field is
repaired. -/
def analyzeTemplateStructureValidate (templateData : List (List JsValue))
    (resp : TemplateStructure) : Except AnalysisErr TemplateStructure :=
  if resp.orientation = "" then Except.error AnalysisErr.invalidStructure
  else
    match validateFields (analyzerMaxRow templateData) (analyzerMaxCol templateData)
        templateData.length (analyzerNCols templateData) 0 resp.fields with
    | Except.ok _ => Except.ok resp
    | Except.error e => Except.error e

/-- A location lies within the region bounds `[0, rowCount) × [0, colCount)` of a
grid, with `rowCount = templateData.length` and `colCount` the first row's width. -/
def locInBounds (templateData : List (List JsValue)) (p : Loc) : Prop :=
  0 ≤ p.row ∧ p.row < (templateData.length : Int) ∧
    0 ≤ p.col ∧ p.col < ((templateData.headD []).length : Int)

instance (templateData : List (List JsValue)) (p : Loc) :
    Decidable (locInBounds templateData p) := by
  unfold locInBounds
  infer_instance

/-! ### Range expander (`getSmartTemplateRange` / `analyzeTemplateSmart`) -/

/-- A sheet region as the expander sees it: absolute origin and extent, with the
property names of `Excel.Range`. -/
structure Region where
  rowIndex : Nat
  columnIndex : Nat
  rowCount : Nat
  columnCount : Nat
  deriving DecidableEq, Repr

/-- `addRangePadding`: clamp the padded start at `0` on each axis (`Math.max(0,
·)`, which is Nat subtraction here) and extend the trailing edge by the padding;
the result spans `start..end` inclusive on both axes. -/
def addRangePadding (r : Region) (rowPadding colPadding : Nat) : Region :=
  let startRow := r.rowIndex - rowPadding
  let startCol := r.columnIndex - colPadding
  let endRow := r.rowIndex + r.rowCount + rowPadding - 1
  let endCol := r.columnIndex + r.columnCount + colPadding - 1
  ⟨startRow, startCol, endRow - startRow + 1, endCol - startCol + 1⟩

/-- `getSmartTemplateRange`'s template-specific refinement of the smart range:
a one-row range is unconditionally padded 8 rows / 2 columns; a shallow-wide
range (≤ 2 rows, > 5 columns) is padded 5 rows / 1 column; a narrow-tall range
(> 3 rows, < 3 columns) is padded 1 row / 3 columns; anything else is returned
unchanged. (The `catch` fallbacks of the source fire only when the host
spreadsheet itself fails to materialize the padded range, which the grid-store
model treats as always succeeding.) -/
def getSmartTemplateRange (r : Region) : Region :=
  if r.rowCount = 1 then addRangePadding r 8 2
  else if r.rowCount ≤ 2 ∧ r.columnCount > 5 then addRangePadding r 5 1
  else if r.rowCount > 3 ∧ r.columnCount < 3 then addRangePadding r 1 3
  else r

/-- The final safety check inside `analyzeTemplateSmart`: a region that is still
exactly one row and wider than 3 columns is replaced by
`getRangeByIndexes(rowIndex, columnIndex, Math.max(10, rowCount), columnCount)` —
same origin, same width, at least 10 rows. -/
def emergencyExpandRegion (r : Region) : Region :=
  if r.rowCount = 1 ∧ r.columnCount > 3 then
    ⟨r.rowIndex, r.columnIndex, max 10 r.rowCount, r.columnCount⟩
  else r

/-- The region that `analyzeTemplateSmart` hands to the analyzer: the smart
template range, passed through the final safety check. -/
def smartTemplateRegionForAnalysis (r : Region) : Region :=
  emergencyExpandRegion (getSmartTemplateRange r)

/-! ### Validation engine (`highlightMismatches`) -/

/-- One mismatch record from the comparison collaborator; `none` in a value slot
models a missing (`undefined`) property. -/
structure Mismatch where
  row : Int
  col : Int
  expectedValue : Option String
  actualValue : Option String
  deriving DecidableEq, Repr

/-- The mismatches that receive a highlight: the highlighting `forEach` colors a
cell exactly when `mismatch.row < excelData.length && mismatch.col <
excelData[0].length` — only the upper bounds are checked. The early return for an
empty mismatch list is included. -/
def highlightedMismatches (ms : List Mismatch) (rowCount colCount : Nat) : List Mismatch :=
  if ms.isEmpty then []
  else ms.filter (fun m => decide (m.row < (rowCount : Int)) && decide (m.col < (colCount : Int)))

/-- `validMismatches` from the source: the mismatches that receive a comment —
the same upper-bound checks plus both values being present (`!== undefined`). -/
def validMismatches (ms : List Mismatch) (rowCount colCount : Nat) : List Mismatch :=
  if ms.isEmpty then []
  else ms.filter (fun m => decide (m.row < (rowCount : Int)) && decide (m.col < (colCount : Int))
    && !(m.expectedValue = none) && !(m.actualValue = none))

/-- The fill state of the sheet: each absolute cell's fill color, if any. -/
def FillState := Int → Int → Option String

/-- `cell.format.fill.color = color` at one absolute cell. -/
def setFill (s : FillState) (r c : Int) (color : String) : FillState :=
  fun r' c' => if r' = r ∧ c' = c then some color else s r' c'

/-- `selectedRange.format.fill.clear()`: every cell of the region (relative
coordinates `[0, rowCount) × [0, colCount)`) loses its fill; cells outside the
region keep theirs. -/
def clearRegionFill (s : FillState) (rowCount colCount : Nat) : FillState :=
  fun r c =>
    if 0 ≤ r ∧ r < (rowCount : Int) ∧ 0 ≤ c ∧ c < (colCount : Int) then none else s r c

/-- One step of the highlighting `forEach`: color the cell red when the
upper-bound test passes, otherwise leave the state unchanged. -/
def highlightStep (rowCount colCount : Nat) (st : FillState) (m : Mismatch) : FillState :=
  if m.row < (rowCount : Int) ∧ m.col < (colCount : Int) then setFill st m.row m.col "red"
  else st

/-- The effect of one `highlightMismatches` call on the fill state: nothing for an
empty mismatch list; otherwise clear the region's fill, then color each passing
mismatch red, in order. -/
def applyHighlightFills (ms : List Mismatch) (rowCount colCount : Nat)
    (s : FillState) : FillState :=
  if ms.isEmpty then s
  else ms.foldl (highlightStep rowCount colCount) (clearRegionFill s rowCount colCount)

/-! ### Concrete fixtures used by the claim instances -/

/-- The P6 field: `{name:"Name", labelPosition:{row:1,col:0}, valuePosition:{row:1,col:1}}`. -/
def p6Field : Field := ⟨"Name", ⟨1, 0⟩, ⟨1, 1⟩, "", "string"⟩

/-- The P6 data row `{Name:"Acme"}`. -/
def p6Row : Row := [("Name", some (JsValue.str "Acme"))]

/-- A field whose `valueLocation` is not one column right of its `fieldLocation`. -/
def cField : Field := ⟨"X", ⟨0, 0⟩, ⟨2, 3⟩, "", "string"⟩

/-- A data row holding a value for `cField`. -/
def cRow : Row := [("X", some (JsValue.str "v"))]

/-- The P7 field: `{name:"Item", valuePosition:{row:1,col:0}}` (label at the
header cell above it). -/
def p7Field : Field := ⟨"Item", ⟨0, 0⟩, ⟨1, 0⟩, "", "string"⟩

/-- The P7 rows `[{Item:"A"},{Item:"B"},{Item:"C"}]`. -/
def p7Rows : List Row :=
  [[("Item", some (JsValue.str "A"))], [("Item", some (JsValue.str "B"))],
    [("Item", some (JsValue.str "C"))]]

/-- A template grid with the `Item` header in its first row. -/
def p7Grid : List (List JsValue) := [[JsValue.str "Item"], [JsValue.str ""]]

/-- A field whose `valueLocation` row is not `1` and whose column is not its
index in the field list. -/
def c2Field : Field := ⟨"Item", ⟨0, 0⟩, ⟨2, 5⟩, "", "string"⟩

/-- A data row holding a value for `c2Field`. -/
def c2Row : Row := [("Item", some (JsValue.str "A"))]

/-- A field that has no value in `p6Row`. -/
def nField : Field := ⟨"Empty", ⟨2, 0⟩, ⟨2, 1⟩, "", "string"⟩

/-- A constant sheet, used to instantiate frame properties. -/
def constSheet : Int → Int → JsValue := fun _ _ => JsValue.str "L"

/-- An empty fill state. -/
def emptyFill : FillState := fun _ _ => none

/-- A mismatch with a negative row index and both values present. -/
def negMis : Mismatch := ⟨-1, 0, some "a", some "b"⟩

/-! ### Helper lemmas: vertical population -/

/-- The fields of a list whose value in the data row is defined
(not `undefined`/`null`). -/
def definedFields (dataRow : Row) (fields : List Field) : List Field :=
  fields.filter (fun f => (rowGet dataRow f.fieldName).isSome)

/-- The write the earlier revision issues for one defined field. -/
def vWrite_rev1 (ri ci : Int) (dataRow : Row) (f : Field) : Write :=
  ⟨ri + f.valueLocation.row, ci + f.valueLocation.col,
    sanitizeValueForExcel (rowGet dataRow f.fieldName)⟩

/-- The write the later revision issues for one defined field. -/
def vWrite_rev2 (ri ci : Int) (dataRow : Row) (f : Field) : Write :=
  ⟨ri + f.fieldLocation.row, ci + f.fieldLocation.col + 1,
    sanitizeValueForExcel (rowGet dataRow f.fieldName)⟩

theorem verticalBuild_rev1_ok (ri ci : Int) (dataRow : Row) :
    ∀ (fields : List Field) (ws : List Write),
      verticalBuild_rev1 ri ci dataRow fields = Except.ok ws →
      ws = (definedFields dataRow fields).map (vWrite_rev1 ri ci dataRow) := by
  intro fields
  induction fields with
  | nil =>
    intro ws h
    simp only [verticalBuild_rev1] at h
    cases h
    simp [definedFields]
  | cons f rest ih =>
    intro ws h
    simp only [verticalBuild_rev1] at h
    cases hv : rowGet dataRow f.fieldName with
    | none =>
      rw [hv] at h
      simp only [definedFields, List.filter_cons, hv, Option.isSome_none]
      exact ih ws h
    | some v =>
      rw [hv] at h
      simp only at h
      split at h
      · cases h
      · cases hr : verticalBuild_rev1 ri ci dataRow rest with
        | ok ws' =>
          rw [hr] at h
          cases h
          simp only [definedFields, List.filter_cons, hv, Option.isSome_some, if_true]
          rw [List.map_cons]
          refine congrArg₂ _ ?_ ?_
          · simp [vWrite_rev1, hv]
          · exact ih ws' hr
        | error e =>
          rw [hr] at h
          cases h

theorem verticalBuild_rev2_ok (ri ci : Int) (dataRow : Row) :
    ∀ (fields : List Field) (ws : List Write),
      verticalBuild_rev2 ri ci dataRow fields = Except.ok ws →
      ws = (definedFields dataRow fields).map (vWrite_rev2 ri ci dataRow) := by
  intro fields
  induction fields with
  | nil =>
    intro ws h
    simp only [verticalBuild_rev2] at h
    cases h
    simp [definedFields]
  | cons f rest ih =>
    intro ws h
    simp only [verticalBuild_rev2] at h
    cases hv : rowGet dataRow f.fieldName with
    | none =>
      rw [hv] at h
      simp only [definedFields, List.filter_cons, hv, Option.isSome_none]
      exact ih ws h
    | some v =>
      rw [hv] at h
      simp only at h
      split at h
      · cases h
      · cases hr : verticalBuild_rev2 ri ci dataRow rest with
        | ok ws' =>
          rw [hr] at h
          cases h
          simp only [definedFields, List.filter_cons, hv, Option.isSome_some, if_true]
          rw [List.map_cons]
          refine congrArg₂ _ ?_ ?_
          · simp [vWrite_rev2, hv]
          · exact ih ws' hr
        | error e =>
          rw [hr] at h
          cases h

theorem verticalBuild_rev2_err (ri ci : Int) (dataRow : Row) :
    ∀ (fields : List Field),
      (∃ f ∈ fields, (rowGet dataRow f.fieldName).isSome ∧
        (ri + f.fieldLocation.row < 0 ∨ ci + f.fieldLocation.col + 1 < 0)) →
      ∃ e, verticalBuild_rev2 ri ci dataRow fields = Except.error e := by
  intro fields
  induction fields with
  | nil => rintro ⟨f, hf, -⟩; cases hf
  | cons g rest ih =>
    rintro ⟨f, hf, hdef, hneg⟩
    simp only [verticalBuild_rev2]
    cases hv : rowGet dataRow g.fieldName with
    | none =>
      rcases List.mem_cons.mp hf with rfl | hmem
      · rw [hv] at hdef; cases hdef
      · exact ih ⟨f, hmem, hdef, hneg⟩
    | some v =>
      simp only
      by_cases hneg' : ri + g.fieldLocation.row < 0 ∨ ci + g.fieldLocation.col + 1 < 0
      · exact ⟨_, by rw [if_pos hneg']⟩
      · rw [if_neg hneg']
        rcases List.mem_cons.mp hf with rfl | hmem
        · exact absurd hneg hneg'
        · obtain ⟨e, he⟩ := ih ⟨f, hmem, hdef, hneg⟩
          exact ⟨e, by rw [he]⟩

theorem verticalBuild_rev2_nonneg (ri ci : Int) (dataRow : Row) :
    ∀ (fields : List Field) (ws : List Write),
      verticalBuild_rev2 ri ci dataRow fields = Except.ok ws →
      ∀ w ∈ ws, 0 ≤ w.row ∧ 0 ≤ w.col := by
  intro fields
  induction fields with
  | nil =>
    intro ws h
    simp only [verticalBuild_rev2] at h
    cases h
    intro w hw
    cases hw
  | cons f rest ih =>
    intro ws h
    simp only [verticalBuild_rev2] at h
    cases hv : rowGet dataRow f.fieldName with
    | none =>
      rw [hv] at h
      exact ih ws h
    | some v =>
      rw [hv] at h
      simp only at h
      split at h
      · cases h
      · next hneg =>
        cases hr : verticalBuild_rev2 ri ci dataRow rest with
        | ok ws' =>
          rw [hr] at h
          cases h
          intro w hw
          rcases List.mem_cons.mp hw with rfl | hmem
          · push_neg at hneg
            exact ⟨hneg.1, hneg.2⟩
          · exact ih ws' hr w hmem
        | error e =>
          rw [hr] at h
          cases h

/-- Any cell that is not the target of some issued write keeps its prior value. -/
theorem applyWrites_frame :
    ∀ (ws : List Write) (sheet : Int → Int → JsValue) (r c : Int),
      (∀ w ∈ ws, ¬(r = w.row ∧ c = w.col)) →
      applyWrites ws sheet r c = sheet r c := by
  intro ws
  induction ws with
  | nil => intro sheet r c _; rfl
  | cons w rest ih =>
    intro sheet r c hmiss
    have hw : ¬(r = w.row ∧ c = w.col) := hmiss w (List.mem_cons_self w rest)
    have hrest : ∀ w' ∈ rest, ¬(r = w'.row ∧ c = w'.col) :=
      fun w' hw' => hmiss w' (List.mem_cons_of_mem w hw')
    calc applyWrites (w :: rest) sheet r c
        = applyWrites rest (fun r' c' => if r' = w.row ∧ c' = w.col then w.value else sheet r' c') r c := rfl
      _ = (fun r' c' => if r' = w.row ∧ c' = w.col then w.value else sheet r' c') r c := ih _ r c hrest
      _ = sheet r c := by simp only [if_neg hw]

/-! ### Claim C1: vertical value placement -/

/-- C1 (counterexample). The claim says every defined field's value is written at
`regionOffset + field.valuePosition`. In the later revision of
`populateVerticalTemplate` this fails: for a field with `fieldLocation (0,0)` and
`valueLocation (2,3)` and offset `(0,0)`, the only issued write lands at `(0, 1)`
(one column right of the label), not at `(2, 3)`. -/
theorem vertical_placement_ignores_valueLocation_cex :
    populateVerticalTemplate_rev2 0 0 [cField] [cRow] =
      Except.ok [⟨0, 1, JsValue.str "v"⟩] ∧
    (rowGet cRow cField.fieldName).isSome = true ∧
    ∀ w ∈ [(⟨0, 1, JsValue.str "v"⟩ : Write)],
      ¬(w.row = 0 + cField.valueLocation.row ∧ w.col = 0 + cField.valueLocation.col) := by
  decide

/-- C1 (amended). In the earlier revision the writes issued by a vertical populate
call are exactly the sanitized values of the fields defined in `rows[0]`, each at
`regionOffset + field.valueLocation`; in the later revision they are exactly the
same values at `regionOffset + (fieldLocation.row, fieldLocation.col + 1)` — one
column right of the label, coinciding with `valueLocation` only when the analyzer
placed the value there. In the concrete P6 instance both revisions write `"Acme"`
at absolute cell `(1,1)` and leave the label cell `(1,0)` untouched. -/
theorem vertical_placement_amended :
    (∀ (ri ci : Int) (fields : List Field) (vdata : List Row) (ws : List Write),
      populateVerticalTemplate_rev1 ri ci fields vdata = Except.ok ws →
      ws = (definedFields (vdata.headD []) fields).map (vWrite_rev1 ri ci (vdata.headD []))) ∧
    (∀ (ri ci : Int) (fields : List Field) (vdata : List Row) (ws : List Write),
      populateVerticalTemplate_rev2 ri ci fields vdata = Except.ok ws →
      ws = (definedFields (vdata.headD []) fields).map (vWrite_rev2 ri ci (vdata.headD []))) ∧
    populateVerticalTemplate_rev1 0 0 [p6Field] [p6Row] =
      Except.ok [⟨1, 1, JsValue.str "Acme"⟩] ∧
    populateVerticalTemplate_rev2 0 0 [p6Field] [p6Row] =
      Except.ok [⟨1, 1, JsValue.str "Acme"⟩] ∧
    ∀ sheet : Int → Int → JsValue,
      applyWrites [⟨1, 1, JsValue.str "Acme"⟩] sheet 1 0 = sheet 1 0 := by
  refine ⟨?_, ?_, by decide, by decide, ?_⟩
  · intro ri ci fields vdata ws h
    exact verticalBuild_rev1_ok ri ci (vdata.headD []) fields ws h
  · intro ri ci fields vdata ws h
    exact verticalBuild_rev2_ok ri ci (vdata.headD []) fields ws h
  · intro sheet
    exact applyWrites_frame _ sheet 1 0 (by decide)

/-- C1 (witness): the amended characterisation evaluated on the P6 instance. -/
theorem vertical_placement_amended_witness :
    [(⟨1, 1, JsValue.str "Acme"⟩ : Write)] =
      (definedFields p6Row [p6Field]).map (vWrite_rev1 0 0 p6Row) :=
  vertical_placement_amended.1 0 0 [p6Field] [p6Row] _ (by decide)

/-! ### Claim C5: populate with empty rows -/

/-- C5 (counterexample). The claim says a populate call with an empty rows list
fails with a `PopulationError`. It does not: `populateTemplate` returns
successfully at once (`return; // Nothing to populate`), issuing no writes. -/
theorem populate_empty_rows_cex :
    populateTemplate 0 0 [] 0 [] none = Except.ok [] := by
  decide

/-- C5 (amended). A populate call with an empty rows list completes successfully
without raising and issues no grid writes. -/
theorem populate_empty_rows_amended :
    ∀ (ri ci : Int) (grid : List (List JsValue)) (rowCount : Nat)
      (ts : Option TemplateStructure),
      populateTemplate ri ci grid rowCount [] ts = Except.ok [] := by
  intro ri ci grid rowCount ts
  rfl

/-- C5 (witness): the amended statement at a concrete instance. -/
theorem populate_empty_rows_amended_witness :
    populateTemplate 3 4 p7Grid 2 [] (some ⟨"vertical", [p6Field]⟩) = Except.ok [] :=
  populate_empty_rows_amended 3 4 p7Grid 2 (some ⟨"vertical", [p6Field]⟩)

/-! ### Claim C6: negative-coordinate guard -/

/-- C6 (counterexample). The claim says that in both orientations a computed
absolute target with a negative row or column makes the call fail before any
write. The horizontal populate performs no such check: with region offset row
`-5` it issues a write at absolute row `-4` and completes normally. -/
theorem horizontal_negative_write_cex :
    populateHorizontalTemplate_rev2 (-5) 0 [[JsValue.str "Item"]] 1 [p7Field]
      [[("Item", some (JsValue.str "A"))]] = [⟨-4, 0, JsValue.str "A"⟩] ∧
    (-4 : Int) < 0 := by
  decide

/-- C6 (amended). Only the vertical orientation guards against negative targets:
a successful vertical populate issues only writes with nonnegative coordinates,
and if some defined field's computed target is negative the call throws (and a
thrown call issues no writes, since writes are applied only after the building
loop finishes). The horizontal orientation has no negative-coordinate check. -/
theorem negative_guard_amended :
    (∀ (ri ci : Int) (fields : List Field) (vdata : List Row) (ws : List Write),
      populateVerticalTemplate_rev2 ri ci fields vdata = Except.ok ws →
      ∀ w ∈ ws, 0 ≤ w.row ∧ 0 ≤ w.col) ∧
    (∀ (ri ci : Int) (fields : List Field) (vdata : List Row),
      (∃ f ∈ fields, (rowGet (vdata.headD []) f.fieldName).isSome ∧
        (ri + f.fieldLocation.row < 0 ∨ ci + f.fieldLocation.col + 1 < 0)) →
      ∃ e, populateVerticalTemplate_rev2 ri ci fields vdata = Except.error e) := by
  constructor
  · intro ri ci fields vdata ws h
    exact verticalBuild_rev2_nonneg ri ci (vdata.headD []) fields ws h
  · intro ri ci fields vdata h
    exact verticalBuild_rev2_err ri ci (vdata.headD []) fields h

/-- C6 (witness): with offset row `-5`, the vertical populate on the P6 instance
throws rather than writing. -/
theorem negative_guard_amended_witness :
    ∃ e, populateVerticalTemplate_rev2 (-5) 0 [p6Field] [p6Row] = Except.error e :=
  negative_guard_amended.2 (-5) 0 [p6Field] [p6Row] (by decide)

/-! ### Claim C10: null fields issue no write (frame property) -/

/-- C10. In vertical population, a field whose value in `rows[0]` is `null` or
`undefined` is skipped before sanitization, so no write is issued for it; every
issued write is the sanitized value of some defined field at that field's
computed value target, and every cell that is not such a target keeps its prior
content. -/
theorem vertical_null_skip_frame :
    ∀ (ri ci : Int) (fields : List Field) (vdata : List Row) (ws : List Write),
      populateVerticalTemplate_rev2 ri ci fields vdata = Except.ok ws →
      (∀ w ∈ ws, ∃ f ∈ definedFields (vdata.headD []) fields,
        w = vWrite_rev2 ri ci (vdata.headD []) f) ∧
      (∀ (sheet : Int → Int → JsValue) (r c : Int),
        (∀ f ∈ definedFields (vdata.headD []) fields,
          ¬(r = ri + f.fieldLocation.row ∧ c = ci + f.fieldLocation.col + 1)) →
        applyWrites ws sheet r c = sheet r c) := by
  intro ri ci fields vdata ws h
  have hch := verticalBuild_rev2_ok ri ci (vdata.headD []) fields ws h
  constructor
  · intro w hw
    rw [hch] at hw
    obtain ⟨f, hf, rfl⟩ := List.mem_map.mp hw
    exact ⟨f, hf, rfl⟩
  · intro sheet r c hmiss
    refine applyWrites_frame ws sheet r c ?_
    intro w hw
    rw [hch] at hw
    obtain ⟨f, hf, rfl⟩ := List.mem_map.mp hw
    exact hmiss f hf

/-- C10 (witness): a field with no value in the data row (`nField`) produces no
write; the sole write of the instance is for the defined field, and `nField`'s
would-be target keeps its prior content. -/
theorem vertical_null_skip_frame_witness :
    applyWrites [⟨1, 1, JsValue.str "Acme"⟩] constSheet 2 1 = constSheet 2 1 :=
  (vertical_null_skip_frame 0 0 [nField, p6Field] [p6Row] _ (by decide)).2
    constSheet 2 1 (by decide)

/-! ### Helper lemmas: horizontal population (block writes) -/

theorem rowWrites_mem :
    ∀ (vs : List JsValue) (j : Nat) (hj : j < vs.length) (r c : Int),
      (⟨r, c + (j : Int), vs.get ⟨j, hj⟩⟩ : Write) ∈ rowWrites r c vs := by
  intro vs
  induction vs with
  | nil => intro j hj; exact absurd hj (by simp)
  | cons v tl ih =>
    intro j hj r c
    cases j with
    | zero => simp [rowWrites]
    | succ j' =>
      have h' : j' < tl.length := Nat.lt_of_succ_lt_succ hj
      have hm := ih j' h' r (c + 1)
      have hcast : c + ((j' + 1 : Nat) : Int) = (c + 1) + (j' : Int) := by push_cast; ring
      simp only [rowWrites, List.mem_cons]
      right
      rw [hcast]
      exact hm

theorem rowWrites_length : ∀ (vs : List JsValue) (r c : Int), (rowWrites r c vs).length = vs.length := by
  intro vs
  induction vs with
  | nil => intro r c; rfl
  | cons v tl ih => intro r c; simp [rowWrites, ih]

theorem blockWrites_mem :
    ∀ (rows : List (List JsValue)) (i : Nat) (hi : i < rows.length) (j : Nat)
      (hj : j < (rows.get ⟨i, hi⟩).length) (r c : Int),
      (⟨r + (i : Int), c + (j : Int), (rows.get ⟨i, hi⟩).get ⟨j, hj⟩⟩ : Write)
        ∈ blockWrites r c rows := by
  intro rows
  induction rows with
  | nil => intro i hi; exact absurd hi (by simp)
  | cons row rest ih =>
    intro i hi j hj r c
    cases i with
    | zero =>
      simp only [blockWrites, List.mem_append]
      left
      have hm := rowWrites_mem row j hj r c
      simpa using hm
    | succ i' =>
      have h' : i' < rest.length := Nat.lt_of_succ_lt_succ hi
      have hm := ih i' h' j hj (r + 1) c
      have hcast : r + ((i' + 1 : Nat) : Int) = (r + 1) + (i' : Int) := by push_cast; ring
      simp only [blockWrites, List.mem_append]
      right
      rw [hcast]
      exact hm

theorem blockWrites_length :
    ∀ (rows : List (List JsValue)) (r c : Int),
      (blockWrites r c rows).length = (rows.map List.length).sum := by
  intro rows
  induction rows with
  | nil => intro r c; rfl
  | cons row rest ih =>
    intro r c
    simp [blockWrites, rowWrites_length, ih]

/-! ### Claim C2: horizontal value placement -/

/-- C2 (counterexample). The claim says each field's value for record `i` lands at
`(regionOffset.row + valuePosition.row + i, regionOffset.col + valuePosition.col)`.
`populateHorizontalTemplate` never reads `valueLocation`: for a field with
`valueLocation (2,5)`, offset `(0,0)` and one record, the claimed target is
`(2,5)` but the single issued write lands at `(1,0)`. -/
theorem horizontal_placement_ignores_valueLocation_cex :
    populateHorizontalTemplate_rev1 0 0 [c2Field] [c2Row] = [⟨1, 0, JsValue.str "A"⟩] ∧
    ∀ w ∈ [(⟨1, 0, JsValue.str "A"⟩ : Write)],
      ¬(w.row = 0 + c2Field.valueLocation.row + 0 ∧ w.col = 0 + c2Field.valueLocation.col) := by
  decide

/-- C2 (amended). The earlier revision writes the value of the `j`-th field of
record `i` at `(regionOffset.row + 1 + i, regionOffset.col + j)` — one row below
the region origin, stacking downward, with the column given by the field's
position in the field list, not by `valuePosition` — and issues exactly
`#records × #fields` writes. (The later revision instead derives the base row
from a scan for the header row and each column from matching the field's name in
that row.) In the concrete P7 instance both revisions write `"A"`→(1,0),
`"B"`→(2,0), `"C"`→(3,0), as P7 states, because there `valuePosition` happens to
coincide with those programmatic targets. -/
theorem horizontal_placement_amended :
    (∀ (ri ci : Int) (fields : List Field) (vdata : List Row) (i j : Nat)
      (hi : i < vdata.length) (hj : j < fields.length),
      (⟨ri + 1 + (i : Int), ci + (j : Int),
        sanitizeValueForExcel (rowGet (vdata.get ⟨i, hi⟩) ((fields.get ⟨j, hj⟩).fieldName))⟩ : Write)
        ∈ populateHorizontalTemplate_rev1 ri ci fields vdata) ∧
    (∀ (ri ci : Int) (fields : List Field) (vdata : List Row),
      (populateHorizontalTemplate_rev1 ri ci fields vdata).length =
        vdata.length * fields.length) ∧
    populateHorizontalTemplate_rev1 0 0 [p7Field] p7Rows =
      [⟨1, 0, JsValue.str "A"⟩, ⟨2, 0, JsValue.str "B"⟩, ⟨3, 0, JsValue.str "C"⟩] ∧
    populateHorizontalTemplate_rev2 0 0 p7Grid 2 [p7Field] p7Rows =
      [⟨1, 0, JsValue.str "A"⟩, ⟨2, 0, JsValue.str "B"⟩, ⟨3, 0, JsValue.str "C"⟩] := by
  refine ⟨?_, ?_, by decide, by decide⟩
  · intro ri ci fields vdata i j hi hj
    have hlen : i < (vdata.map (fun dataObject =>
        (fields.map (fun f => f.fieldName)).map
          (fun h => sanitizeValueForExcel (rowGet dataObject h)))).length := by
      simpa using hi
    have hlen2 : j < ((vdata.map (fun dataObject =>
        (fields.map (fun f => f.fieldName)).map
          (fun h => sanitizeValueForExcel (rowGet dataObject h)))).get ⟨i, hlen⟩).length := by
      simp [List.get_map]
      exact hj
    have hm := blockWrites_mem _ i hlen j hlen2 (ri + 1) ci
    simpa [populateHorizontalTemplate_rev1, List.get_map] using hm
  · intro ri ci fields vdata
    have haux : ∀ (l : List Row) (f : Row → List JsValue), (∀ d, (f d).length = fields.length) →
        ((l.map f).map List.length).sum = l.length * fields.length := by
      intro l f hf
      induction l with
      | nil => simp
      | cons d tl ih =>
        simp only [List.map_cons, List.sum_cons, hf, ih, List.length_cons]
        ring
    simp only [populateHorizontalTemplate_rev1, blockWrites_length]
    exact haux vdata _ (fun d => by simp)

/-- C2 (witness): the amended placement formula evaluated on the P7 instance
(record 0, field 0 lands at `(1, 0)` with value `"A"`). -/
theorem horizontal_placement_amended_witness :
    (⟨1, 0, JsValue.str "A"⟩ : Write) ∈ populateHorizontalTemplate_rev1 0 0 [p7Field] p7Rows := by
  have hm := horizontal_placement_amended.1 0 0 [p7Field] p7Rows 0 0 (by decide) (by decide)
  exact hm

/-! ### Claim C8: single-row safety net -/

/-- C8. The region handed to the analyzer is never one row by more than three
columns: any one-row result of the smart-range heuristics is caught by the final
safety check of `analyzeTemplateSmart`, which replaces a region that is still
`1 × (>3)` by one with the same origin and width and `max(10, rowCount)` rows. -/
theorem single_row_safety_net :
    (∀ r : Region, ¬((smartTemplateRegionForAnalysis r).rowCount = 1 ∧
        (smartTemplateRegionForAnalysis r).columnCount > 3)) ∧
    (∀ r : Region, r.rowCount = 1 → r.columnCount > 3 →
        emergencyExpandRegion r = ⟨r.rowIndex, r.columnIndex, 10, r.columnCount⟩) := by
  constructor
  · intro r
    unfold smartTemplateRegionForAnalysis emergencyExpandRegion
    split
    · rintro ⟨h1, -⟩
      simp only at h1
      omega
    · next hcond => exact hcond
  · intro r h1 h2
    unfold emergencyExpandRegion
    rw [if_pos ⟨h1, h2⟩, h1]
    congr 1

/-- C8 (witness): the safety check on the concrete one-row region `1 × 5` at the
origin, and the composite expansion never yielding a `1 × (>3)` region there. -/
theorem single_row_safety_net_witness :
    emergencyExpandRegion ⟨0, 0, 1, 5⟩ = ⟨0, 0, 10, 5⟩ ∧
    ¬((smartTemplateRegionForAnalysis ⟨0, 0, 1, 5⟩).rowCount = 1 ∧
      (smartTemplateRegionForAnalysis ⟨0, 0, 1, 5⟩).columnCount > 3) :=
  ⟨single_row_safety_net.2 ⟨0, 0, 1, 5⟩ rfl (by decide),
    single_row_safety_net.1 ⟨0, 0, 1, 5⟩⟩

/-! ### Claim C9: idempotent highlighting -/

/-- Whether some mismatch in the list passes the upper-bound test and targets the
cell `(r, c)`. -/
def hitsRed (rowCount colCount : Nat) (r c : Int) (ms : List Mismatch) : Bool :=
  ms.any (fun m => decide (m.row < (rowCount : Int)) && decide (m.col < (colCount : Int)) &&
    decide (m.row = r) && decide (m.col = c))

theorem highlightFold_apply (rowCount colCount : Nat) :
    ∀ (ms : List Mismatch) (st : FillState) (r c : Int),
      ms.foldl (highlightStep rowCount colCount) st r c =
        (if hitsRed rowCount colCount r c ms then some "red" else st r c) := by
  intro ms
  induction ms with
  | nil => intro st r c; simp [hitsRed]
  | cons m tl ih =>
    intro st r c
    rw [List.foldl_cons, ih]
    have hcons : hitsRed rowCount colCount r c (m :: tl) =
        ((decide (m.row < (rowCount : Int)) && decide (m.col < (colCount : Int)) &&
          decide (m.row = r) && decide (m.col = c)) || hitsRed rowCount colCount r c tl) := by
      simp [hitsRed, List.any_cons]
    by_cases htl : hitsRed rowCount colCount r c tl = true
    · rw [if_pos htl, hcons, htl]
      simp
    · rw [if_neg htl, hcons, eq_false_of_ne_true htl]
      simp only [Bool.or_false]
      unfold highlightStep setFill
      by_cases hb : m.row < (rowCount : Int) ∧ m.col < (colCount : Int)
      · rw [if_pos hb]
        by_cases hp : r = m.row ∧ c = m.col
        · rw [if_pos hp]
          have hbt : (decide (m.row < (rowCount : Int)) && decide (m.col < (colCount : Int)) &&
              decide (m.row = r) && decide (m.col = c)) = true := by
            rw [decide_eq_true hb.1, decide_eq_true hb.2, decide_eq_true hp.1.symm,
              decide_eq_true hp.2.symm]
            rfl
          rw [hbt, if_pos rfl]
        · rw [if_neg hp]
          have hbf : (decide (m.row < (rowCount : Int)) && decide (m.col < (colCount : Int)) &&
              decide (m.row = r) && decide (m.col = c)) = false := by
            rcases not_and_or.mp hp with h | h
            · have hd : decide (m.row = r) = false := decide_eq_false (fun hh => h hh.symm)
              simp [hd]
            · have hd : decide (m.col = c) = false := decide_eq_false (fun hh => h hh.symm)
              simp [hd]
          rw [hbf, if_neg (by simp)]
      · rw [if_neg hb]
        have hbf : (decide (m.row < (rowCount : Int)) && decide (m.col < (colCount : Int)) &&
            decide (m.row = r) && decide (m.col = c)) = false := by
          rcases not_and_or.mp hb with h | h
          · have hd : decide (m.row < (rowCount : Int)) = false := decide_eq_false h
            simp [hd]
          · have hd : decide (m.col < (colCount : Int)) = false := decide_eq_false h
            simp [hd]
        rw [hbf, if_neg (by simp)]

/-- C9. Running `highlightMismatches` twice with the same mismatch list on the
same region leaves the same final fill state as running it once: the region's
fill is cleared before the new highlights are applied, so repeated runs never
stack. -/
theorem highlight_idempotent :
    ∀ (ms : List Mismatch) (rowCount colCount : Nat) (s : FillState),
      applyHighlightFills ms rowCount colCount (applyHighlightFills ms rowCount colCount s) =
        applyHighlightFills ms rowCount colCount s := by
  intro ms rc cc s
  unfold applyHighlightFills
  by_cases hms : ms.isEmpty
  · simp [hms]
  · simp only [hms, Bool.false_eq_true, if_false]
    funext r c
    rw [highlightFold_apply, highlightFold_apply]
    by_cases hh : hitsRed rc cc r c ms = true
    · rw [if_pos hh, if_pos hh]
    · rw [if_neg hh, if_neg hh]
      unfold clearRegionFill
      split
      · rfl
      · next hreg =>
        rw [highlightFold_apply, if_neg hh]
        exact if_neg hreg

/-- C9 (witness): idempotence evaluated at a concrete mismatch list, region and
fill state. -/
theorem highlight_idempotent_witness :
    applyHighlightFills [negMis] 2 2 (applyHighlightFills [negMis] 2 2 emptyFill) =
      applyHighlightFills [negMis] 2 2 emptyFill :=
  highlight_idempotent [negMis] 2 2 emptyFill

/-! ### Claim C7: mismatch filtering -/

/-- C7 (counterexample). The claim says a mismatch whose row or col lies outside
`[0, rowCount) × [0, colCount)` is excluded from highlighting and annotation. A
mismatch with row `-1` is outside those bounds, yet it passes both filters (only
the upper bounds are checked) on a `2 × 2` region. -/
theorem mismatch_filtering_negative_cex :
    highlightedMismatches [negMis] 2 2 = [negMis] ∧
    validMismatches [negMis] 2 2 = [negMis] ∧
    negMis.row < 0 := by
  decide

/-- C7 (amended). A mismatch is highlighted iff it is in the list and passes the
upper-bound tests `row < rowCount` and `col < colCount` (negative coordinates are
not excluded), and it is annotated iff additionally both its expected and actual
values are present; each entry is filtered independently, so an excluded entry
never prevents the others from being processed. -/
theorem mismatch_filtering_amended :
    ∀ (ms : List Mismatch) (rowCount colCount : Nat) (m : Mismatch),
      (m ∈ highlightedMismatches ms rowCount colCount ↔
        m ∈ ms ∧ m.row < (rowCount : Int) ∧ m.col < (colCount : Int)) ∧
      (m ∈ validMismatches ms rowCount colCount ↔
        m ∈ ms ∧ m.row < (rowCount : Int) ∧ m.col < (colCount : Int) ∧
          m.expectedValue ≠ none ∧ m.actualValue ≠ none) := by
  intro ms rc cc m
  constructor
  · unfold highlightedMismatches
    by_cases hms : ms.isEmpty
    · rw [if_pos hms]
      rw [List.isEmpty_iff] at hms
      subst hms
      simp
    · rw [if_neg hms]
      simp [List.mem_filter, and_assoc]
  · unfold validMismatches
    by_cases hms : ms.isEmpty
    · rw [if_pos hms]
      rw [List.isEmpty_iff] at hms
      subst hms
      simp
    · rw [if_neg hms]
      simp [List.mem_filter, and_assoc]

/-- C7 (witness): the amended filter conditions at a concrete mismatch — the
negative-row entry is processed because only the upper bounds are tested. -/
theorem mismatch_filtering_amended_witness :
    negMis ∈ validMismatches [negMis] 2 2 :=
  (mismatch_filtering_amended [negMis] 2 2 negMis).2.mpr (by decide)

/-! ### Helper lemmas: analyzer validation -/

/-- Fixture grid `2 × 2` for the analyzer claims. -/
def grid22 : List (List JsValue) :=
  [[JsValue.str "Name", JsValue.str ""], [JsValue.str "X", JsValue.str ""]]

/-- Fixture response whose single field passes every analyzer check on `grid22`. -/
def okResp : TemplateStructure := ⟨"vertical", [p6Field]⟩

theorem validateFields_ok (maxRow maxCol : Int) (nRows nCols : Nat) :
    ∀ (idx : Nat) (fields : List Field),
      validateFields maxRow maxCol nRows nCols idx fields = Except.ok () →
      ∀ f ∈ fields,
        ¬(f.fieldLocation.row = f.valueLocation.row ∧
            f.fieldLocation.col = f.valueLocation.col) ∧
        (0 ≤ f.fieldLocation.row ∧ f.fieldLocation.row ≤ maxRow ∧
          0 ≤ f.fieldLocation.col ∧ f.fieldLocation.col ≤ maxCol) ∧
        (0 ≤ f.valueLocation.row ∧ f.valueLocation.row ≤ maxRow ∧
          0 ≤ f.valueLocation.col ∧ f.valueLocation.col ≤ maxCol) := by
  intro idx fields
  induction fields generalizing idx with
  | nil => intro h f hf; cases hf
  | cons g rest ih =>
    intro h f hf
    simp only [validateFields] at h
    split at h
    · cases h
    next hsame =>
      split at h
      · cases h
      next hfb =>
        split at h
        · cases h
        next hvb =>
          rcases List.mem_cons.mp hf with rfl | hmem
          · push_neg at hfb hvb
            exact ⟨hsame, by omega, by omega⟩
          · exact ih (idx + 1) h f hmem

theorem analyzeTemplateStructureValidate_ok (templateData : List (List JsValue))
    (resp out : TemplateStructure)
    (h : analyzeTemplateStructureValidate templateData resp = Except.ok out) :
    out = resp ∧
      validateFields (analyzerMaxRow templateData) (analyzerMaxCol templateData)
        templateData.length (analyzerNCols templateData) 0 resp.fields = Except.ok () := by
  unfold analyzeTemplateStructureValidate at h
  split at h
  · cases h
  · split at h
    next u heq =>
      cases h
      refine ⟨rfl, ?_⟩
      rw [heq]
    next e heq => cases h

theorem analyzerBounds_of_le (templateData : List (List JsValue)) (p : Loc)
    (h1 : 0 ≤ p.row) (h2 : p.row ≤ analyzerMaxRow templateData)
    (h3 : 0 ≤ p.col) (h4 : p.col ≤ analyzerMaxCol templateData) :
    locInBounds templateData p := by
  unfold analyzerMaxRow at h2
  unfold analyzerMaxCol at h4
  cases templateData with
  | nil =>
    exfalso
    simp at h2
    omega
  | cons r0 rest =>
    unfold locInBounds
    refine ⟨h1, ?_, h3, ?_⟩
    · simp only [List.length_cons] at h2 ⊢
      omega
    · simp only [List.head?_cons] at h4
      simp only [List.headD_cons]
      unfold jsOrInt at h4
      split at h4 <;> omega

/-! ### Claim C3: no field with identical label and value positions -/

/-- C3. The analyzer's post-hoc validation guarantees that every returned
structure has `fieldLocation ≠ valueLocation` for every field, with the parsed
response passed through unchanged (no repair); when some field violates the
guard the call throws, and the thrown same-location message names the offending
field. -/
theorem analyzer_no_self_overwrite :
    (∀ (templateData : List (List JsValue)) (resp out : TemplateStructure),
      analyzeTemplateStructureValidate templateData resp = Except.ok out →
      out = resp ∧ ∀ f ∈ resp.fields, f.fieldLocation ≠ f.valueLocation) ∧
    (∀ (templateData : List (List JsValue)) (resp : TemplateStructure),
      (∃ f ∈ resp.fields, f.fieldLocation = f.valueLocation) →
      ∃ e, analyzeTemplateStructureValidate templateData resp = Except.error e) ∧
    (∀ f : Field, ∃ s t : String,
      renderAnalysisErr (AnalysisErr.sameLocation f) = s ++ (f.fieldName ++ t)) := by
  refine ⟨?_, ?_, ?_⟩
  · intro data resp out h
    obtain ⟨rfl, hok⟩ := analyzeTemplateStructureValidate_ok data resp out h
    refine ⟨rfl, ?_⟩
    intro f hf heq
    exact (validateFields_ok _ _ _ _ 0 out.fields hok f hf).1
      ⟨congrArg Loc.row heq, congrArg Loc.col heq⟩
  · intro data resp hex
    cases hres : analyzeTemplateStructureValidate data resp with
    | error e => exact ⟨e, rfl⟩
    | ok out =>
      exfalso
      obtain ⟨-, hok⟩ := analyzeTemplateStructureValidate_ok data resp out hres
      obtain ⟨f, hf, heq⟩ := hex
      exact (validateFields_ok _ _ _ _ 0 resp.fields hok f hf).1
        ⟨congrArg Loc.row heq, congrArg Loc.col heq⟩
  · intro f
    refine ⟨"Field \"", "\" has invalid configuration: valueLocation " ++
      renderLoc f.valueLocation ++ " is identical to fieldLocation " ++
      renderLoc f.fieldLocation ++
      ". Values cannot be placed on top of field names. This would overwrite the field name and corrupt the template.", ?_⟩
    simp [renderAnalysisErr, String.append_assoc]

/-- C3 (witness): the validated fixture response keeps distinct label and value
positions for every field. -/
theorem analyzer_no_self_overwrite_witness :
    ∀ f ∈ okResp.fields, f.fieldLocation ≠ f.valueLocation :=
  (analyzer_no_self_overwrite.1 grid22 okResp okResp (by decide)).2

/-! ### Claim C4: analyzer bounds validation -/

/-- C4. A structure returned by the analyzer's validation has every field's
`fieldLocation` and `valueLocation` inside `[0, rowCount) × [0, colCount)` of the
analyzed grid; a field list containing an out-of-bounds field makes the call
throw, and the out-of-bounds message names the offending field (along with the
offending coordinate and the valid bound it interpolates). -/
theorem analyzer_bounds :
    (∀ (templateData : List (List JsValue)) (resp out : TemplateStructure),
      analyzeTemplateStructureValidate templateData resp = Except.ok out →
      ∀ f ∈ out.fields, locInBounds templateData f.fieldLocation ∧
        locInBounds templateData f.valueLocation) ∧
    (∀ (templateData : List (List JsValue)) (resp : TemplateStructure),
      (∃ f ∈ resp.fields, ¬(locInBounds templateData f.fieldLocation ∧
        locInBounds templateData f.valueLocation)) →
      ∃ e, analyzeTemplateStructureValidate templateData resp = Except.error e) ∧
    (∀ (idx : Nat) (f : Field) (maxRow maxCol : Int) (nRows nCols : Nat),
      ∃ s t : String,
        renderAnalysisErr (AnalysisErr.fieldLocationOutOfBounds idx f maxRow maxCol nRows nCols) =
          s ++ (f.fieldName ++ t)) := by
  refine ⟨?_, ?_, ?_⟩
  · intro data resp out h
    obtain ⟨rfl, hok⟩ := analyzeTemplateStructureValidate_ok data resp out h
    intro f hf
    obtain ⟨-, hfb, hvb⟩ := validateFields_ok _ _ _ _ 0 out.fields hok f hf
    exact ⟨analyzerBounds_of_le data _ hfb.1 hfb.2.1 hfb.2.2.1 hfb.2.2.2,
      analyzerBounds_of_le data _ hvb.1 hvb.2.1 hvb.2.2.1 hvb.2.2.2⟩
  · intro data resp hex
    cases hres : analyzeTemplateStructureValidate data resp with
    | error e => exact ⟨e, rfl⟩
    | ok out =>
      exfalso
      obtain ⟨rfl, hok⟩ := analyzeTemplateStructureValidate_ok data resp out hres
      obtain ⟨f, hf, hnb⟩ := hex
      obtain ⟨-, hfb, hvb⟩ := validateFields_ok _ _ _ _ 0 out.fields hok f hf
      exact hnb ⟨analyzerBounds_of_le data _ hfb.1 hfb.2.1 hfb.2.2.1 hfb.2.2.2,
        analyzerBounds_of_le data _ hvb.1 hvb.2.1 hvb.2.2.1 hvb.2.2.2⟩
  · intro idx f maxRow maxCol nRows nCols
    refine ⟨"Field " ++ toString idx ++ " (", ") has invalid fieldLocation: " ++
      renderLoc f.fieldLocation ++ ". Must be within bounds [0-" ++ toString maxRow ++
      ", 0-" ++ toString maxCol ++ "]. Template data has " ++ toString nRows ++
      " rows and " ++ toString nCols ++ " columns.", ?_⟩
    simp [renderAnalysisErr, String.append_assoc]

/-- C4 (witness): both locations of the validated fixture response's field lie
within the `2 × 2` fixture grid's bounds. -/
theorem analyzer_bounds_witness :
    ∀ f ∈ okResp.fields, locInBounds grid22 f.fieldLocation ∧
      locInBounds grid22 f.valueLocation :=
  analyzer_bounds.1 grid22 okResp okResp (by decide)

end ExcelCopilot
